import Mathlib

/-
  Verification of the two analytical kernels of the gsoc-jupyterbook repository:
  the half-loaded-waveguide dispersion-condition checker (TMx_condition,
  TEx_condition, verify_mode) and the Mie-series analytical efficiency
  calculator (compute_a, calculate_analytical_efficiencies).

  Floating-point numbers are modelled as exact real numbers, complex floats as
  elements of the Mathlib field of complex numbers.  The external
  special-function library (Bessel functions of the first kind, Hankel
  functions of the second kind, and their first derivatives) is modelled as an
  abstract bundle of functions, since the kernels only combine their values
  algebraically and never inspect them.
-/

open Real

noncomputable section

/-- Model of numpy.sqrt on complex arguments: the principal complex square
root, with branch cut along the negative real axis, implemented as the
principal complex power z ^ (1/2). -/
def csqrt (z : ℂ) : ℂ := z ^ (1 / 2 : ℂ)

/-- Default relative tolerance of numpy.isclose (rtol = 1e-05). -/
def npRtol : ℝ := 1 / 100000

/-- Model of numpy.isclose(a, b, atol) on complex scalars:
abs (a - b) <= atol + rtol * abs b with the default rtol. -/
def npIsclose (a b : ℂ) (atol : ℝ) : Prop :=
  Complex.abs (a - b) ≤ atol + npRtol * Complex.abs b

/-- Model of the external special-function library used by the Mie kernel:
scipy.special jv (Bessel function of the first kind), jvp (its first
derivative), hankel2 (Hankel function of the second kind) and h2vp (its first
derivative), each taking an integer order and a complex argument. -/
structure SpecialFunctions where
  jv : ℕ → ℂ → ℂ
  jvp : ℕ → ℂ → ℂ
  hankel2 : ℕ → ℂ → ℂ
  h2vp : ℕ → ℂ → ℂ

/-- Translation of TMx_condition from the waveguide notebook:
kx_d / eps_d * tan(kx_d * d) + kx_v / eps_v * tan(kx_v * (h - d)). -/
def TMx_condition (kx_d kx_v eps_d eps_v : ℂ) (d h : ℝ) : ℂ :=
  kx_d / eps_d * Complex.tan (kx_d * (d : ℂ))
    + kx_v / eps_v * Complex.tan (kx_v * ((h : ℂ) - (d : ℂ)))

/-- Translation of TEx_condition from the waveguide notebook:
kx_d / tan(kx_d * d) + kx_v / tan(kx_v * (h - d)). -/
def TEx_condition (kx_d kx_v : ℂ) (d h : ℝ) : ℂ :=
  kx_d / Complex.tan (kx_d * (d : ℂ))
    + kx_v / Complex.tan (kx_v * ((h : ℂ) - (d : ℂ)))

/-- The intermediate kx_d_target of verify_mode:
sqrt(k0^2 * eps_d - ky^2 + - kz^2 + 0j). -/
def verifyMode_kx_d_target (kz : ℂ) (k0 ky : ℝ) (eps_d : ℂ) : ℂ :=
  csqrt ((k0 : ℂ) ^ 2 * eps_d - (ky : ℂ) ^ 2 + -kz ^ 2 + 0)

/-- The intermediate alpha of verify_mode: kx_d_target squared. -/
def verifyMode_alpha (kz : ℂ) (k0 ky : ℝ) (eps_d : ℂ) : ℂ :=
  verifyMode_kx_d_target kz k0 ky eps_d ^ 2

/-- The intermediate beta of verify_mode: alpha - k0^2 * (eps_d - eps_v). -/
def verifyMode_beta (kz : ℂ) (k0 ky : ℝ) (eps_d eps_v : ℂ) : ℂ :=
  verifyMode_alpha kz k0 ky eps_d - (k0 : ℂ) ^ 2 * (eps_d - eps_v)

/-- The vacuum transverse wavenumber computed inside verify_mode:
kx_v = sqrt(beta). -/
def verifyMode_kx_v (kz : ℂ) (k0 ky : ℝ) (eps_d eps_v : ℂ) : ℂ :=
  csqrt (verifyMode_beta kz k0 ky eps_d eps_v)

/-- The dielectric transverse wavenumber computed inside verify_mode:
kx_d = sqrt(alpha). -/
def verifyMode_kx_d (kz : ℂ) (k0 ky : ℝ) (eps_d : ℂ) : ℂ :=
  csqrt (verifyMode_alpha kz k0 ky eps_d)

/-- Translation of verify_mode from the waveguide notebook: fixes n = 1,
computes k0 = 2 pi / lmbd0 and ky = n pi / w, derives the transverse
wavenumbers, evaluates the TM and TE conditions and accepts when either is
numpy-close to zero with absolute tolerance threshold. -/
def verify_mode (kz : ℂ) (w h d lmbd0 : ℝ) (eps_d eps_v : ℂ)
    (threshold : ℝ) : Prop :=
  let k0 : ℝ := 2 * π / lmbd0
  let ky : ℝ := 1 * π / w
  let kx_v : ℂ := verifyMode_kx_v kz k0 ky eps_d eps_v
  let kx_d : ℂ := verifyMode_kx_d kz k0 ky eps_d
  let f_tm : ℂ := TMx_condition kx_d kx_v eps_d eps_v d h
  let f_te : ℂ := TEx_condition kx_d kx_v d h
  npIsclose f_tm 0 threshold ∨ npIsclose f_te 0 threshold

/-- Translation of compute_a from the scattering notebook: the Mie
coefficient of order nu for relative index m and size parameter alpha. -/
def compute_a (sf : SpecialFunctions) (nu : ℕ) (m : ℂ) (alpha : ℝ) : ℂ :=
  let J_nu_alpha : ℂ := sf.jv nu (alpha : ℂ)
  let J_nu_malpha : ℂ := sf.jv nu (m * (alpha : ℂ))
  let J_nu_alpha_p : ℂ := sf.jvp nu (alpha : ℂ)
  let J_nu_malpha_p : ℂ := sf.jvp nu (m * (alpha : ℂ))
  let H_nu_alpha : ℂ := sf.hankel2 nu (alpha : ℂ)
  let H_nu_alpha_p : ℂ := sf.h2vp nu (alpha : ℂ)
  let a_nu_num : ℂ := J_nu_alpha * J_nu_malpha_p - m * J_nu_malpha * J_nu_alpha_p
  let a_nu_den : ℂ := H_nu_alpha * J_nu_malpha_p - m * J_nu_malpha * H_nu_alpha_p
  a_nu_num / a_nu_den

/-- Translation of calculate_analytical_efficiencies from the scattering
notebook.  The Python for-loop over nu in range(1, num_n + 1) is modelled as a
left fold over the list [1, ..., num_n] accumulating the pair
(q_ext, q_sca); the function returns (q_ext - q_sca, q_sca, q_ext). -/
def calculate_analytical_efficiencies (sf : SpecialFunctions) (eps : ℂ)
    (n_bkg wl0 radius_wire : ℝ) (num_n : ℕ) : ℝ × ℝ × ℝ :=
  let m : ℂ := csqrt ((starRingEnd ℂ) eps) / (n_bkg : ℂ)
  let alpha : ℝ := 2 * π * radius_wire / wl0 * n_bkg
  let c : ℝ := 2 / alpha
  let q_ext : ℝ := c * (compute_a sf 0 m alpha).re
  let q_sca : ℝ := c * Complex.abs (compute_a sf 0 m alpha) ^ 2
  let qs : ℝ × ℝ := (List.range' 1 num_n).foldl
    (fun acc nu =>
      (acc.1 + c * 2 * (compute_a sf nu m alpha).re,
       acc.2 + c * 2 * Complex.abs (compute_a sf nu m alpha) ^ 2))
    (q_ext, q_sca)
  (qs.1 - qs.2, qs.2, qs.1)

/-- A concrete instance of the special-function bundle, used only to
instantiate universally quantified statements at a closed input. -/
def sfTrivial : SpecialFunctions :=
  ⟨fun _ _ => 0, fun _ _ => 0, fun _ _ => 0, fun _ _ => 0⟩

/-- Relative refractive index as the spec states it:
m = sqrt(conj(permittivity)) / background_index. -/
def spec_m (eps : ℂ) (n_bkg : ℝ) : ℂ :=
  csqrt ((starRingEnd ℂ) eps) / (n_bkg : ℂ)

/-- Size parameter as the spec states it:
alpha = 2 pi radius background_index / wavelength. -/
def spec_alpha (radius_wire n_bkg wl0 : ℝ) : ℝ :=
  2 * π * radius_wire * n_bkg / wl0

/-- Extinction efficiency as the spec states it:
q_ext = (2/alpha) Re(a_0 + 2 sum of a_nu for nu from 1 to max_order). -/
def spec_q_ext (sf : SpecialFunctions) (m : ℂ) (alpha : ℝ) (num_n : ℕ) : ℝ :=
  2 / alpha *
    (compute_a sf 0 m alpha
      + 2 * ∑ nu in Finset.Icc 1 num_n, compute_a sf nu m alpha).re

/-- Scattering efficiency as the spec states it:
q_sca = (2/alpha) (abs (a_0) ^ 2 + 2 sum of abs (a_nu) ^ 2 for nu from 1 to
max_order). -/
def spec_q_sca (sf : SpecialFunctions) (m : ℂ) (alpha : ℝ) (num_n : ℕ) : ℝ :=
  2 / alpha *
    (Complex.abs (compute_a sf 0 m alpha) ^ 2
      + 2 * ∑ nu in Finset.Icc 1 num_n, Complex.abs (compute_a sf nu m alpha) ^ 2)

/-- Exception raised by CPython when a native float is divided by zero. -/
inductive PyError where
  | zeroDivision

/-- Model of CPython native float division: dividing by zero raises
ZeroDivisionError, otherwise the exact quotient is produced.  The scalar
arguments of both kernels are annotated native floats, and numpy.pi is a
native float, so the divisions on their entry paths follow this semantics
rather than the non-raising numpy array semantics. -/
def pyDiv (x y : ℝ) : Except PyError ℝ :=
  if y = 0 then Except.error PyError.zeroDivision else Except.ok (x / y)

/-- Exception behaviour of calculate_analytical_efficiencies: the two native
float divisions on its path are alpha = 2 pi radius_wire / wl0 * n_bkg and
c = 2 / alpha, in that order.  Every later operation goes through numpy or
scipy scalars and produces a value (infinities or NaN in degenerate cases)
instead of raising, so once both divisions succeed the call returns the value
of the total model. -/
def calculate_analytical_efficiencies_run (sf : SpecialFunctions) (eps : ℂ)
    (n_bkg wl0 radius_wire : ℝ) (num_n : ℕ) : Except PyError (ℝ × ℝ × ℝ) :=
  match pyDiv (2 * π * radius_wire) wl0 with
  | Except.error e => Except.error e
  | Except.ok alpha0 =>
    match pyDiv 2 (alpha0 * n_bkg) with
    | Except.error e => Except.error e
    | Except.ok _ =>
      Except.ok (calculate_analytical_efficiencies sf eps n_bkg wl0 radius_wire num_n)

/-- Exception behaviour of verify_mode: the native float divisions on its
path are k0 = 2 pi / lmbd0 and ky = 1 pi / w, in that order.  All later
operations are numpy complex scalar arithmetic and special functions, which
never raise, so once both divisions succeed the call returns the value of the
total model. -/
def verify_mode_run (kz : ℂ) (w h d lmbd0 : ℝ) (eps_d eps_v : ℂ)
    (threshold : ℝ) : Except PyError Prop :=
  match pyDiv (2 * π) lmbd0 with
  | Except.error e => Except.error e
  | Except.ok _ =>
    match pyDiv (1 * π) w with
    | Except.error e => Except.error e
    | Except.ok _ =>
      Except.ok (verify_mode kz w h d lmbd0 eps_d eps_v threshold)

/-- The principal complex square root squares back to its argument. -/
lemma csqrt_sq (z : ℂ) : csqrt z ^ 2 = z := by
  unfold csqrt
  rcases eq_or_ne z 0 with h | h
  · subst h
    rw [Complex.zero_cpow (by norm_num : (1 / 2 : ℂ) ≠ 0)]
    norm_num
  · rw [sq, ← Complex.cpow_add _ _ h]
    norm_num

/-- numpy.isclose against the reference value 0 degenerates to a pure
modulus test, because the relative-tolerance term vanishes. -/
lemma npIsclose_zero_iff (f : ℂ) (atol : ℝ) :
    npIsclose f 0 atol ↔ Complex.abs f ≤ atol := by
  unfold npIsclose npRtol
  simp

/-- Dividing by the tangent is multiplying by the cotangent, in the total
field semantics of complex division. -/
lemma div_tan_eq_mul_cot (x z : ℂ) :
    x / Complex.tan z = x * Complex.cot z := by
  rw [Complex.tan_eq_sin_div_cos, Complex.cot_eq_cos_div_sin,
    div_eq_mul_inv, inv_div]

/-- The dielectric transverse wavenumber of verify_mode equals the principal
square root of k0^2 eps_d - ky^2 - kz^2 directly. -/
lemma verifyMode_kx_d_eq (kz : ℂ) (k0 ky : ℝ) (eps_d : ℂ) :
    verifyMode_kx_d kz k0 ky eps_d =
      csqrt ((k0 : ℂ) ^ 2 * eps_d - (ky : ℂ) ^ 2 - kz ^ 2) := by
  unfold verifyMode_kx_d verifyMode_alpha verifyMode_kx_d_target
  rw [csqrt_sq]
  congr 1
  ring

/-- The vacuum transverse wavenumber of verify_mode equals the principal
square root of kx_d^2 - k0^2 (eps_d - eps_v). -/
lemma verifyMode_kx_v_eq (kz : ℂ) (k0 ky : ℝ) (eps_d eps_v : ℂ) :
    verifyMode_kx_v kz k0 ky eps_d eps_v =
      csqrt (verifyMode_kx_d kz k0 ky eps_d ^ 2
        - (k0 : ℂ) ^ 2 * (eps_d - eps_v)) := by
  unfold verifyMode_kx_v verifyMode_beta verifyMode_kx_d
  rw [csqrt_sq]

/-- Claim C2: for every order nu, relative index m and size parameter alpha,
compute_a returns exactly the Mie quotient
(J J' - m J J') / (H2 J' - m J H2'), with no guard on the denominator. -/
theorem claim_C2_mie_coefficient (sf : SpecialFunctions) (nu : ℕ) (m : ℂ)
    (alpha : ℝ) :
    compute_a sf nu m alpha =
      (sf.jv nu (alpha : ℂ) * sf.jvp nu (m * (alpha : ℂ))
          - m * sf.jv nu (m * (alpha : ℂ)) * sf.jvp nu (alpha : ℂ))
        / (sf.hankel2 nu (alpha : ℂ) * sf.jvp nu (m * (alpha : ℂ))
          - m * sf.jv nu (m * (alpha : ℂ)) * sf.h2vp nu (alpha : ℂ)) := rfl

/-- Claim C5: TEx_condition returns kx_d cot(kx_d d) + kx_v cot(kx_v (h - d))
(computed through division by the tangent), and TMx_condition returns
kx_d / eps_d tan(kx_d d) + kx_v / eps_v tan(kx_v (h - d)). -/
theorem claim_C5_mode_conditions (kx_d kx_v eps_d eps_v : ℂ) (d h : ℝ) :
    TEx_condition kx_d kx_v d h =
      kx_d * Complex.cot (kx_d * (d : ℂ))
        + kx_v * Complex.cot (kx_v * ((h : ℂ) - (d : ℂ)))
    ∧ TMx_condition kx_d kx_v eps_d eps_v d h =
      kx_d / eps_d * Complex.tan (kx_d * (d : ℂ))
        + kx_v / eps_v * Complex.tan (kx_v * ((h : ℂ) - (d : ℂ))) := by
  constructor
  · unfold TEx_condition
    rw [div_tan_eq_mul_cot, div_tan_eq_mul_cot]
  · rfl

/-- Claim C10: the acceptance test numpy.isclose(f, 0, atol = threshold) holds
if and only if the complex modulus of f is at most the threshold; the
relative-tolerance term vanishes because the reference value is 0, and
closeness is not tested componentwise. -/
theorem claim_C10_isclose_modulus (f : ℂ) (atol : ℝ) :
    npIsclose f 0 atol ↔ Complex.abs f ≤ atol :=
  npIsclose_zero_iff f atol

/-- A left fold that adds f and g componentwise to an accumulator pair is the
pair of the initial values plus the mapped sums. -/
lemma foldl_pair_add (f g : ℕ → ℝ) (l : List ℕ) :
    ∀ a b : ℝ,
      l.foldl (fun acc nu => (acc.1 + f nu, acc.2 + g nu)) (a, b)
        = (a + (l.map f).sum, b + (l.map g).sum) := by
  induction l with
  | nil => intro a b; simp
  | cons x xs ih =>
      intro a b
      simp only [List.foldl_cons, List.map_cons, List.sum_cons]
      rw [ih]
      simp [add_assoc]

/-- The sum of f over the list [1, ..., n] is the sum of f over the interval
Icc 1 n. -/
lemma sum_map_range' (f : ℕ → ℝ) (n : ℕ) :
    ((List.range' 1 n).map f).sum = ∑ nu in Finset.Icc 1 n, f nu := by
  induction n with
  | zero => simp
  | succ k ih =>
      rw [List.range'_concat, List.map_append, List.sum_append, ih,
        Finset.sum_Icc_succ_top (Nat.succ_le_succ (Nat.zero_le k))]
      simp [Nat.add_comm]

/-- Claim C1: for every permittivity, background index, wavelength, radius and
truncation order, calculate_analytical_efficiencies computes
m = sqrt(conj(eps)) / n_bkg and alpha = 2 pi radius n_bkg / wl0, the spec
formulas for q_ext and q_sca truncated at max_order, and returns the triple
(q_ext - q_sca, q_sca, q_ext), that is (absorption, scattering, extinction). -/
theorem claim_C1_efficiencies (sf : SpecialFunctions) (eps : ℂ)
    (n_bkg wl0 radius_wire : ℝ) (num_n : ℕ) :
    calculate_analytical_efficiencies sf eps n_bkg wl0 radius_wire num_n =
      (spec_q_ext sf (spec_m eps n_bkg) (spec_alpha radius_wire n_bkg wl0) num_n
         - spec_q_sca sf (spec_m eps n_bkg) (spec_alpha radius_wire n_bkg wl0) num_n,
       spec_q_sca sf (spec_m eps n_bkg) (spec_alpha radius_wire n_bkg wl0) num_n,
       spec_q_ext sf (spec_m eps n_bkg) (spec_alpha radius_wire n_bkg wl0) num_n) := by
  have hA : spec_alpha radius_wire n_bkg wl0 = 2 * π * radius_wire / wl0 * n_bkg := by
    unfold spec_alpha; ring
  rw [hA]
  simp only [calculate_analytical_efficiencies, spec_q_ext, spec_q_sca, spec_m]
  set A : ℝ := 2 * π * radius_wire / wl0 * n_bkg with hAdef
  set M : ℂ := csqrt ((starRingEnd ℂ) eps) / (n_bkg : ℂ) with hMdef
  rw [foldl_pair_add (fun nu => 2 / A * 2 * (compute_a sf nu M A).re)
      (fun nu => 2 / A * 2 * Complex.abs (compute_a sf nu M A) ^ 2),
    sum_map_range', sum_map_range']
  have hre : (compute_a sf 0 M A
        + 2 * ∑ nu in Finset.Icc 1 num_n, compute_a sf nu M A).re
      = (compute_a sf 0 M A).re
        + 2 * ∑ nu in Finset.Icc 1 num_n, (compute_a sf nu M A).re := by
    simp [Complex.add_re, Complex.mul_re, Complex.re_sum]
  have hsum1 : ∑ nu in Finset.Icc 1 num_n, 2 / A * 2 * (compute_a sf nu M A).re
      = 2 / A * 2 * ∑ nu in Finset.Icc 1 num_n, (compute_a sf nu M A).re := by
    rw [← Finset.mul_sum]
  have hsum2 : ∑ nu in Finset.Icc 1 num_n,
        2 / A * 2 * Complex.abs (compute_a sf nu M A) ^ 2
      = 2 / A * 2 * ∑ nu in Finset.Icc 1 num_n,
          Complex.abs (compute_a sf nu M A) ^ 2 := by
    rw [← Finset.mul_sum]
  simp only [Prod.mk.injEq]
  refine ⟨?_, ?_, ?_⟩
  · rw [hre, hsum1, hsum2]; ring
  · rw [hsum2]; ring
  · rw [hre, hsum1]; ring

/-- Claim C9: with truncation order zero the summation loop runs no
iterations, and the efficiencies use only the order-zero Mie coefficient:
q_ext = (2/alpha) Re(a_0) and q_sca = (2/alpha) abs (a_0) ^ 2. -/
theorem claim_C9_order_zero (sf : SpecialFunctions) (eps : ℂ)
    (n_bkg wl0 radius_wire : ℝ) :
    calculate_analytical_efficiencies sf eps n_bkg wl0 radius_wire 0 =
      (2 / spec_alpha radius_wire n_bkg wl0
         * (compute_a sf 0 (spec_m eps n_bkg) (spec_alpha radius_wire n_bkg wl0)).re
        - 2 / spec_alpha radius_wire n_bkg wl0
         * Complex.abs (compute_a sf 0 (spec_m eps n_bkg)
             (spec_alpha radius_wire n_bkg wl0)) ^ 2,
       2 / spec_alpha radius_wire n_bkg wl0
         * Complex.abs (compute_a sf 0 (spec_m eps n_bkg)
             (spec_alpha radius_wire n_bkg wl0)) ^ 2,
       2 / spec_alpha radius_wire n_bkg wl0
         * (compute_a sf 0 (spec_m eps n_bkg)
             (spec_alpha radius_wire n_bkg wl0)).re) := by
  have hA : spec_alpha radius_wire n_bkg wl0 = 2 * π * radius_wire / wl0 * n_bkg := by
    unfold spec_alpha; ring
  rw [hA]
  simp only [calculate_analytical_efficiencies, spec_m, List.range']
  simp [List.foldl]

/-- Claim C6: the returned triple always satisfies
extinction = absorption + scattering, exactly in the real-number model of the
floating-point arithmetic, by construction of absorption as the difference;
in particular this holds at the reference gold case
eps = -1.0782 + 5.8089 i, n_bkg = 1, wl0 = 0.4, radius = 0.05, for every
truncation order. -/
theorem claim_C6_extinction_decomposition (sf : SpecialFunctions) (eps : ℂ)
    (n_bkg wl0 radius_wire : ℝ) (num_n : ℕ) :
    ((calculate_analytical_efficiencies sf eps n_bkg wl0 radius_wire num_n).2.2
      = (calculate_analytical_efficiencies sf eps n_bkg wl0 radius_wire num_n).1
        + (calculate_analytical_efficiencies sf eps n_bkg wl0 radius_wire num_n).2.1)
    ∧ ((calculate_analytical_efficiencies sf (-1.0782 + 5.8089 * Complex.I)
          1 0.4 0.05 num_n).2.2
      = (calculate_analytical_efficiencies sf (-1.0782 + 5.8089 * Complex.I)
          1 0.4 0.05 num_n).1
        + (calculate_analytical_efficiencies sf (-1.0782 + 5.8089 * Complex.I)
          1 0.4 0.05 num_n).2.1) := by
  constructor
  · simp only [calculate_analytical_efficiencies]
    ring
  · simp only [calculate_analytical_efficiencies]
    ring

/-- Claim C4: the transverse wavenumbers computed inside verify_mode satisfy
kx_d = sqrt(k0^2 eps_d - ky^2 - kz^2) with the principal complex square root,
and kx_v = sqrt(kx_d^2 - k0^2 (eps_d - eps_v)), for every complex kz with no
error condition. -/
theorem claim_C4_transverse_wavenumbers (kz : ℂ) (k0 ky : ℝ)
    (eps_d eps_v : ℂ) :
    verifyMode_kx_d kz k0 ky eps_d =
      csqrt ((k0 : ℂ) ^ 2 * eps_d - (ky : ℂ) ^ 2 - kz ^ 2)
    ∧ verifyMode_kx_v kz k0 ky eps_d eps_v =
      csqrt (verifyMode_kx_d kz k0 ky eps_d ^ 2
        - (k0 : ℂ) ^ 2 * (eps_d - eps_v)) :=
  ⟨verifyMode_kx_d_eq kz k0 ky eps_d, verifyMode_kx_v_eq kz k0 ky eps_d eps_v⟩

/-- Claim C3: verify_mode fixes n = 1 (ky = pi/w, k0 = 2 pi/lmbd0), derives
kx_d and kx_v, evaluates the TE and TM conditions, and holds if and only if
either residual has modulus within the threshold; it only validates the
supplied kz. -/
theorem claim_C3_verify_mode (kz : ℂ) (w h d lmbd0 : ℝ) (eps_d eps_v : ℂ)
    (threshold : ℝ) :
    verify_mode kz w h d lmbd0 eps_d eps_v threshold ↔
      (Complex.abs
          (TEx_condition
            (csqrt (((2 * π / lmbd0 : ℝ) : ℂ) ^ 2 * eps_d
              - ((π / w : ℝ) : ℂ) ^ 2 - kz ^ 2))
            (csqrt ((csqrt (((2 * π / lmbd0 : ℝ) : ℂ) ^ 2 * eps_d
                - ((π / w : ℝ) : ℂ) ^ 2 - kz ^ 2)) ^ 2
              - ((2 * π / lmbd0 : ℝ) : ℂ) ^ 2 * (eps_d - eps_v)))
            d h) ≤ threshold
        ∨ Complex.abs
          (TMx_condition
            (csqrt (((2 * π / lmbd0 : ℝ) : ℂ) ^ 2 * eps_d
              - ((π / w : ℝ) : ℂ) ^ 2 - kz ^ 2))
            (csqrt ((csqrt (((2 * π / lmbd0 : ℝ) : ℂ) ^ 2 * eps_d
                - ((π / w : ℝ) : ℂ) ^ 2 - kz ^ 2)) ^ 2
              - ((2 * π / lmbd0 : ℝ) : ℂ) ^ 2 * (eps_d - eps_v)))
            eps_d eps_v d h) ≤ threshold) := by
  have h1 : (1 : ℝ) * π / w = π / w := by ring
  simp only [verify_mode]
  rw [h1, verifyMode_kx_v_eq, verifyMode_kx_d_eq,
    npIsclose_zero_iff, npIsclose_zero_iff]
  exact or_comm

/-- Claim C7: both kernels are deterministic pure functions: two calls with
identical inputs return identical outputs, with no hidden state. -/
theorem claim_C7_deterministic (sf : SpecialFunctions)
    (e₁ e₂ kz₁ kz₂ ed₁ ed₂ ev₁ ev₂ : ℂ)
    (n₁ n₂ wl₁ wl₂ r₁ r₂ w₁ w₂ h₁ h₂ d₁ d₂ l₁ l₂ t₁ t₂ : ℝ) (k₁ k₂ : ℕ)
    (hmie : (e₁, n₁, wl₁, r₁, k₁) = (e₂, n₂, wl₂, r₂, k₂))
    (hwg : (kz₁, w₁, h₁, d₁, l₁, ed₁, ev₁, t₁)
      = (kz₂, w₂, h₂, d₂, l₂, ed₂, ev₂, t₂)) :
    calculate_analytical_efficiencies sf e₁ n₁ wl₁ r₁ k₁
        = calculate_analytical_efficiencies sf e₂ n₂ wl₂ r₂ k₂
      ∧ verify_mode kz₁ w₁ h₁ d₁ l₁ ed₁ ev₁ t₁
        = verify_mode kz₂ w₂ h₂ d₂ l₂ ed₂ ev₂ t₂ := by
  simp only [Prod.mk.injEq] at hmie hwg
  obtain ⟨rfl, rfl, rfl, rfl, rfl⟩ := hmie
  obtain ⟨rfl, rfl, rfl, rfl, rfl, rfl, rfl, rfl⟩ := hwg
  exact ⟨rfl, rfl⟩

/-- Witness for claim C7 at a concrete closed input. -/
theorem claim_C7_deterministic_witness :
    calculate_analytical_efficiencies sfTrivial 0 1 1 1 0
        = calculate_analytical_efficiencies sfTrivial 0 1 1 1 0
      ∧ verify_mode 0 1 1 1 1 1 1 1 = verify_mode 0 1 1 1 1 1 1 1 := by
  apply claim_C7_deterministic <;> rfl

/-- Counterexample to claim C8 as stated: at the physically invalid input
with zero wavelength, both kernels raise ZeroDivisionError from the native
float divisions computing alpha (respectively k0), instead of returning a
value. -/
theorem claim_C8_raises_counterexample :
    calculate_analytical_efficiencies_run sfTrivial 0 1 0 1 0
        = Except.error PyError.zeroDivision
    ∧ verify_mode_run 0 1 1 1 0 1 1 1
        = Except.error PyError.zeroDivision := by
  constructor
  · simp [calculate_analytical_efficiencies_run, pyDiv]
  · simp [verify_mode_run, pyDiv]

/-- Claim C8, amended: neither kernel validates its inputs, and apart from
the native float divisions on the entry path (alpha and c = 2 / alpha in
calculate_analytical_efficiencies, k0 and ky in verify_mode), which raise
ZeroDivisionError when their divisor is zero, no exception is raised: for
every input whose entry divisors are nonzero both calls return the value of
the total model, whatever the special-function evaluations produce there. -/
theorem claim_C8_no_validation (sf : SpecialFunctions) (eps : ℂ)
    (n_bkg wl0 radius_wire : ℝ) (num_n : ℕ) (kz : ℂ) (w h d lmbd0 : ℝ)
    (eps_d eps_v : ℂ) (threshold : ℝ)
    (hwl0 : wl0 ≠ 0) (halpha : 2 * π * radius_wire / wl0 * n_bkg ≠ 0)
    (hlmbd0 : lmbd0 ≠ 0) (hw : w ≠ 0) :
    calculate_analytical_efficiencies_run sf eps n_bkg wl0 radius_wire num_n
        = Except.ok (calculate_analytical_efficiencies sf eps n_bkg wl0 radius_wire num_n)
    ∧ verify_mode_run kz w h d lmbd0 eps_d eps_v threshold
        = Except.ok (verify_mode kz w h d lmbd0 eps_d eps_v threshold) := by
  constructor
  · simp [calculate_analytical_efficiencies_run, pyDiv, hwl0, halpha]
  · simp [verify_mode_run, pyDiv, hlmbd0, hw]

/-- Witness for the amended claim C8 at a concrete closed input with all
entry divisors nonzero. -/
theorem claim_C8_no_validation_witness :
    calculate_analytical_efficiencies_run sfTrivial 0 1 1 1 0
        = Except.ok (calculate_analytical_efficiencies sfTrivial 0 1 1 1 0)
    ∧ verify_mode_run 0 1 1 1 1 1 1 1
        = Except.ok (verify_mode 0 1 1 1 1 1 1 1) := by
  apply claim_C8_no_validation <;> norm_num [Real.pi_ne_zero]
